import Mathlib

/-!
Shallow embedding of the pyhsm credential validation server
(`pyhsm/val/validation_server.py`) and the stick daemon
(`pyhsm/stick_daemon.py`), with theorems about the validation protocol:
signature canonicalization, the replay-safe OATH counter store, the
OATH-HOTP validation path, request routing, and the daemon's lock protocol.

Conventions of the embedding:
* `urlparse.parse_qs` output is modelled as an association list
  `List (String × List String)` with unique keys and non-empty value lists
  (which is what `parse_qs` produces).
* Python byte strings (keys, signatures, canonical strings) are `String`.
* The HMAC-SHA1 primitive (`hmac.new(key, msg, hashlib.sha1).digest()`) and
  base64 encoding are Python standard-library collaborators, not repository
  code; they enter the model as explicit function parameters
  `hmacSha1 : String → String → String` and `b64encode : String → String`.
* A Python function that can raise an unhandled exception is modelled with
  `Option` / an explicit `exn` outcome.
-/

/-- Python values as they occur in `validate_yubikey_otp`'s `sl` guard: the
values of a `parse_qs` mapping are lists of strings, while the literals
`"100"` and `"secure"` are strings. -/
inductive PyVal where
  | pstr (s : String)
  | plist (vs : List String)
deriving DecidableEq

/-- Python `==` restricted to the value types occurring in the guard: two
strings compare by content, two lists compare by content, and a comparison
across types (`list == str`) is `False`. -/
def pyEq : PyVal → PyVal → Bool
  | .pstr a, .pstr b => a == b
  | .plist a, .plist b => a == b
  | _, _ => false

/-- Result of `urlparse.parse_qs`: an association list from parameter name to
the list of supplied values. -/
abbrev Params := List (String × List String)

/-- `name in params` / `params[name]` on a `parse_qs` dictionary. -/
def getParam (ps : Params) (k : String) : Option (List String) :=
  ps.lookup k

/-- `name in params` as a Boolean. -/
def hasParam (ps : Params) (k : String) : Bool :=
  (getParam ps k).isSome

/-- A Python dictionary from string keys to string values (the `vres`
response mapping, and request parameters after `"".join`). -/
abbrev StrMap := List (String × String)

/-- Python dictionary assignment `m[k] = v`: replace the value of an existing
key, otherwise append the new binding. -/
def setk (m : StrMap) (k v : String) : StrMap :=
  if m.any (fun p => p.1 == k) then
    m.map (fun p => if p.1 == k then (k, v) else p)
  else
    m ++ [(k, v)]

/-- The keys of a dictionary, in insertion order. -/
def dictKeys (m : List (String × α)) : List String :=
  m.map Prod.fst

/-- Lexicographic comparison of character lists by code point — the order
Python 2 `sorted` uses on byte strings. -/
def strListLe : List Char → List Char → Bool
  | [], _ => true
  | _ :: _, [] => false
  | a :: as, b :: bs =>
    if a.toNat < b.toNat then true
    else if b.toNat < a.toNat then false
    else strListLe as bs

/-- Lexicographic string comparison. -/
def strLe (a b : String) : Bool :=
  strListLe a.data b.data

/-- Python `sorted(m.keys())`. -/
def sortedKeys (m : List (String × α)) : List String :=
  List.insertionSort (fun a b => strLe a b = true) (dictKeys m)

/-- The canonical signing string of `make_signature`: `"&".join` of
`name + "=" + value` for every key except `h`, in sorted key order
(`validation_server.py` line 371). -/
def canonString (m : StrMap) : String :=
  String.intercalate "&"
    (((sortedKeys m).filter (fun k => k ≠ "h")).map
      (fun k => k ++ "=" ++ ((m.lookup k).getD "")))

/-- `make_signature(params, hmac_key)` (lines 364–373): base64 of the
HMAC-SHA1, keyed with `hmac_key`, of the canonical string. -/
def make_signature (hmacSha1 : String → String → String)
    (b64encode : String → String) (m : StrMap) (hmac_key : String) : String :=
  b64encode (hmacSha1 hmac_key (canonString m))

/-- The view of request parameters that `make_signature` takes: Python's
`"".join(params[x])` concatenates the value list of each key. -/
def joinedParams (ps : Params) : StrMap :=
  ps.map (fun kv => (kv.1, String.join kv.2))

/-- The numeric value of a decimal digit sequence. -/
def digitsToNat (cs : List Char) : Nat :=
  cs.foldl (fun n c => n * 10 + (c.toNat - 48)) 0

/-- The value of a non-empty all-digit token; `none` otherwise. -/
def decDigits? (cs : List Char) : Option Nat :=
  if cs ≠ [] ∧ cs.all Char.isDigit then some (digitsToNat cs) else none

/-- Python `int(s)` on a string: optional surrounding whitespace, an optional
sign, then decimal digits; anything else raises (`none`). -/
def parseIntPy (s : String) : Option Int :=
  let t := (((s.data.dropWhile Char.isWhitespace).reverse.dropWhile
    Char.isWhitespace).reverse)
  match t with
  | '-' :: ds => (decDigits? ds).map (fun n => -(n : Int))
  | '+' :: ds => (decDigits? ds).map (fun n => (n : Int))
  | ds => (decDigits? ds).map (fun n => (n : Int))

/-- `check_signature(params)` (lines 320–361). The client table
`client_ids` maps numeric client ids to shared secrets.  Note the control
flow of the source: when the supplied signature differs from the computed
one, the `else` branch only logs — there is no `return` — so execution
falls through to the final `return True, None`. -/
def check_signature (hmacSha1 : String → String → String)
    (b64encode : String → String) (client_ids : List (Int × String))
    (ps : Params) : Bool × Option String :=
  match getParam ps "id" with
  | none => (true, none)
  | some idvals =>
    match parseIntPy (idvals.headD "") with
    | none => (false, none)
    | some id_int =>
      match client_ids.lookup id_int with
      | none => (false, none)
      | some key =>
        if key = "" then (false, none)   -- `if key:` — empty secret is falsy
        else
          match getParam ps "h" with
          | none => (false, some key)
          | some hvals =>
            let sig := hvals.headD ""
            let good_sig := make_signature hmacSha1 b64encode (joinedParams ps) key
            if sig = good_sig then (true, some key)
            else (true, none)            -- fall-through to `return True, None`

/-- `make_otp_response(vres, client_key)` (lines 308–317): sign `vres` with
the client key when one is present, store the signature under `h`, then emit
`key=value` lines for the sorted keys, joined with newlines. -/
def make_otp_response (hmacSha1 : String → String → String)
    (b64encode : String → String) (vres : StrMap)
    (client_key : Option String) : String :=
  let vres' :=
    match client_key with
    | some k => setk vres "h" (make_signature hmacSha1 b64encode vres k)
    | none => vres
  String.intercalate "\n"
    ((sortedKeys vres').map (fun k => k ++ "=" ++ ((vres'.lookup k).getD "")))

/-- Split a character list at every occurrence of a separator. -/
def splitOnChar (sep : Char) : List Char → List (List Char)
  | [] => [[]]
  | c :: cs =>
    if c = sep then [] :: splitOnChar sep cs
    else
      match splitOnChar sep cs with
      | [] => [[c]]
      | g :: gs => (c :: g) :: gs

/-- The field names of a wire response: the part before `=` on each line. -/
def responseFields (s : String) : List String :=
  (splitOnChar '\n' s.data).map
    (fun line => String.mk (line.takeWhile (fun c => c ≠ '=')))

/-- The modhex alphabet of `ykotp_valid_input` / `hotp_valid_input`. -/
def isModhexChar (c : Char) : Bool :=
  "cbdefghijklnrtuv".data.contains c

/-- `ykotp_valid_input = ^[cbdefghijklnrtuv]{32,48}$`. -/
def ykotp_valid (s : String) : Bool :=
  decide (32 ≤ s.length) && decide (s.length ≤ 48) && s.data.all isModhexChar

/-- `hotp_valid_input = ^[cbdefghijklnrtuv0-9]{6,20}$`. -/
def hotp_valid (s : String) : Bool :=
  decide (6 ≤ s.length) && decide (s.length ≤ 20) &&
    s.data.all (fun c => isModhexChar c || c.isDigit)

/-- The null signing key `chr(0)` used for unknown clients (line 273). -/
def nullKey : String :=
  String.mk [Char.ofNat 0]

/-- Status reported by `pyhsm.yubikey.validate_otp` when it raises
`YHSM_CommandFailed` (lines 291–299). -/
inductive DevStatus where
  | idNotFound
  | otpReplay
  | otpInvalid
  | otherErr
deriving DecidableEq

/-- Outcome of the trust device's internal-database OTP validation:
either the counters of a successful validation, or a command failure. -/
inductive DevResult where
  | ok (use_ctr session_ctr ts_high ts_low : Nat)
  | failed (st : DevStatus)

/-- The trust device as a collaborator: the validation outcome for an OTP
string.  `validation_server.py` calls it through `pyhsm.yubikey`. -/
abbrev Device := String → DevResult

/-- The `vres` mapping and client key of `validate_yubikey_otp` after input
checks, the `sl` guard and signature verification (lines 244–275), i.e.
just before the device is consulted. -/
def otpPreVres (hmacSha1 : String → String → String)
    (b64encode : String → String) (client_ids : List (Int × String))
    (ps : Params) : StrMap × Option String :=
  let from_key := ((getParam ps "otp").getD []).headD ""
  let vres1 : StrMap :=
    if ykotp_valid from_key then setk [] "otp" from_key
    else setk [] "status" "BAD_OTP"
  let vres2 :=
    match getParam ps "nonce" with
    | none => setk vres1 "status" "MISSING_PARAMETER"
    | some nv =>
      let nonce := nv.headD ""
      if nonce.length < 16 ∨ nonce.length > 40 then
        setk vres1 "status" "MISSING_PARAMETER"
      else setk vres1 "nonce" nonce
  let vres3 :=
    match getParam ps "sl" with
    | some slv =>
      if ¬ (pyEq (.plist slv) (.pstr "100") ∨ pyEq (.plist slv) (.pstr "secure")) then
        setk vres2 "status" "BACKEND_ERROR"
      else vres2
    | none => vres2
  let sck := check_signature hmacSha1 b64encode client_ids ps
  if sck.1 = true then (vres3, sck.2)
  else
    match sck.2 with
    | none => (setk vres3 "status" "NO_SUCH_CLIENT", some nullKey)
    | some k => (setk vres3 "status" "BAD_SIGNATURE", some k)

/-- The `vres` mapping after the device step of `validate_yubikey_otp`
(lines 276–303): the device is consulted only when no status has been set
yet.  `nowStr` stands for `time.strftime("%FT%TZ0000", time.gmtime())`. -/
def otpDeviceVres (device : Device) (nowStr : String) (ps : Params)
    (from_key : String) (v : StrMap) : StrMap :=
  if (v.lookup "status").isSome then v
  else
    match device from_key with
    | .ok use_ctr session_ctr ts_high ts_low =>
      let va := setk (setk (setk (setk v "status" "OK")
        "sessioncounter" (toString use_ctr))
        "sessionuse" (toString session_ctr))
        "timestamp" (toString ((ts_high <<< 16 ||| ts_low) / 8))
      if hasParam ps "sl" then
        let vb := setk va "sl" "100"
        if hasParam ps "timestamp" then setk vb "t" nowStr else vb
      else va
    | .failed st =>
      setk v "status"
        (match st with
         | .idNotFound => "BAD_OTP"
         | .otpReplay => "REPLAYED_OTP"
         | .otpInvalid => "BAD_OTP"
         | .otherErr => "BACKEND_ERROR")

/-- `validate_yubikey_otp(self, params)` (lines 240–305), returning the wire
response body. -/
def validate_yubikey_otp (hmacSha1 : String → String → String)
    (b64encode : String → String) (client_ids : List (Int × String))
    (device : Device) (nowStr : String) (ps : Params) : String :=
  let from_key := ((getParam ps "otp").getD []).headD ""
  let pre := otpPreVres hmacSha1 b64encode client_ids ps
  let v' := otpDeviceVres device nowStr ps from_key pre.1
  make_otp_response hmacSha1 b64encode v' pre.2

/-- A row of the `oath` table
(`CREATE TABLE oath (key TEXT PRIMARY KEY, nonce TEXT, key_handle INTEGER,
aead TEXT, oath_C INTEGER, oath_T INTEGER)`, `init_oath_token.py`). -/
structure OathRow where
  key : String
  nonce : String
  key_handle : Nat
  aead : String
  oath_c : Nat
deriving DecidableEq

/-- The `oath` table contents. -/
abbrev OathDb := List OathRow

/-- `ValOathDb.get(key)` (lines 560–570): the first row whose `key` column
matches; `none` models the raised "not found" exception. -/
def db_get (db : OathDb) (k : String) : Option OathRow :=
  db.find? (fun r => r.key == k)

/-- `ValOathDb.update_oath_hotp_c(entry, new_c)` (lines 572–589):
`UPDATE oath SET oath_c = ? WHERE key = ? AND ? > oath_c`, then
`return c.rowcount == 1`.  Returns the table after the update and the
success flag. -/
def update_oath_hotp_c (db : OathDb) (k : String) (new_c : Nat) :
    OathDb × Bool :=
  let hit : OathRow → Bool := fun r => r.key == k && decide (new_c > r.oath_c)
  (db.map (fun r => if hit r then { r with oath_c := new_c } else r),
   db.countP hit == 1)

/-- Number of rows with the given key; the `PRIMARY KEY` constraint of the
schema makes this at most 1 in any real database. -/
def keyCount (db : OathDb) (k : String) : Nat :=
  db.countP (fun r => r.key == k)

/-- A sequence of later `update_oath_hotp_c` calls applied to the table. -/
def applyUpdates (us : List (String × Nat)) (db : OathDb) : OathDb :=
  us.foldl (fun d u => (update_oath_hotp_c d u.1 u.2).1) db

/-- Modelled from the spec: `pyhsm.oath_hotp.search_for_oath_code` is not
part of the sources under review (only its callers are).  Per §4.3 of the
spec it probes `computeCode` for each counter in
`[startCounter, startCounter + windowSize)` in increasing order and returns
the counter **following** the first match, or `NotFound`.  `codeAt` is the
code the trust device computes for a given counter of this record. -/
def searchLoop (codeAt : Nat → Nat) (otp : Nat) : Nat → Nat → Option Nat
  | _, 0 => none
  | c, w + 1 => if codeAt c = otp then some (c + 1) else searchLoop codeAt otp (c + 1) w

/-- Modelled from the spec: the search entry point
`search_for_oath_code(hsm, key_handle, nonce, aead, oath_c, otp, look_ahead)`
with the device and record data abstracted into `codeAt`. -/
def search_for_oath_code (codeAt : Nat → Nat) (oath_c : Nat) (otp : Nat)
    (look_ahead : Nat) : Option Nat :=
  searchLoop codeAt otp oath_c look_ahead

/-- Outcome of a request handler: a response body line, or an unhandled
Python exception (no response line is produced). -/
inductive PyResult where
  | resp (s : String)
  | exn
deriving DecidableEq

/-- `get_oath_hotp_bits(params)` (lines 522–534).  With a `uid` parameter the
OTP is `int(params["hotp"][0])`; otherwise the regex
`^([cbdefghijklnrtuv]*)([0-9]{6,8})` is matched against the `hotp` value —
since the two character classes are disjoint, the greedy match takes the
maximal modhex prefix and then requires at least 6 digits, of which at most
8 are taken.  `none` models an unhandled exception (`m.groups()` on a failed
match, or `int()` on a non-decimal string). -/
def get_oath_hotp_bits (ps : Params) : Option (String × Nat) :=
  match getParam ps "hotp" with
  | none => none
  | some hv =>
    let s := hv.headD ""
    match getParam ps "uid" with
    | some uidvals =>
      match decDigits? s.data with
      | some n => some (uidvals.headD "", n)
      | none => none
    | none =>
      let letters := s.data.takeWhile isModhexChar
      let digits := (s.data.dropWhile isModhexChar).takeWhile Char.isDigit
      if 6 ≤ digits.length then
        some (String.mk letters, digitsToNat (digits.take 8))
      else none

/-- `"%04x" % n`: lowercase hexadecimal, zero padded to at least width 4. -/
def hex4 (n : Nat) : String :=
  let ds := Nat.toDigits 16 n
  String.mk (List.replicate (4 - ds.length) '0' ++ ds)

/-- `validate_oath_hotp(self, params)` (lines 376–435).  The trust device and
the record's AEAD/nonce are abstracted into `codeAt` (the device-computed
code per counter); `look_ahead` is `args.look_ahead`.  Because a concurrent
request may commit between this request's `db.get` and its counter update,
the table is passed twice: `dbRead` is its state at `db.get`, `dbUpd` its
state at `update_oath_hotp_c`; a sequential run has `dbRead = dbUpd`.
Returns the handler outcome and the table after the update. -/
def validate_oath_hotp (codeAt : Nat → Nat) (look_ahead : Nat) (ps : Params)
    (dbRead dbUpd : OathDb) : PyResult × OathDb :=
  match getParam ps "hotp" with
  | none => (.exn, dbUpd)
  | some hv =>
    let from_key := hv.headD ""
    if ¬ hotp_valid from_key then (.resp "ERR Invalid OATH-HOTP OTP", dbUpd)
    else
      match get_oath_hotp_bits ps with
      | none => (.exn, dbUpd)
      | some (uid, otp) =>
        if uid = "" ∨ otp = 0 then (.resp "ERR Invalid OATH-HOTP input", dbUpd)
        else
          match db_get dbRead uid with
          | none => (.resp "ERR Internal error", dbUpd)
          | some entry =>
            match search_for_oath_code codeAt entry.oath_c otp look_ahead with
            | none => (.resp "ERR Could not validate OATH-HOTP OTP", dbUpd)
            | some new_counter =>
              let upd := update_oath_hotp_c dbUpd entry.key new_counter
              if upd.2 then (.resp ("OK counter=" ++ hex4 new_counter), upd.1)
              else (.resp "ERR replayed OATH-HOTP", upd.1)

/-- The mode-enabling command line flags of the validation server
(`--short-otp`, `--otp`, `--hotp`, `--totp`, `--pwhash`). -/
structure ValFlags where
  mode_short_otp : Bool
  mode_otp : Bool
  mode_hotp : Bool
  mode_totp : Bool
  mode_pwhash : Bool
deriving DecidableEq

/-- The validation mode handlers reachable from `do_GET`. -/
inductive VMode where
  | shortOtp
  | otp
  | hotp
  | totp
  | pwhash
deriving DecidableEq

/-- The routing key of `do_GET` that selects a handler. -/
def routingKey : VMode → String
  | .shortOtp => "otp"
  | .otp => "otp"
  | .hotp => "hotp"
  | .totp => "totp"
  | .pwhash => "pwhash"

/-- The `if/elif` routing of `do_GET` (lines 135–167): which mode handler, if
any, runs for the given parameters.  A disabled mode and the absence of all
four routing keys both run no handler (they yield an `ERR ... disabled`
body or a 403 respectively). -/
def dispatchMode (f : ValFlags) (ps : Params) : Option VMode :=
  if hasParam ps "otp" then
    if f.mode_short_otp then some .shortOtp
    else if f.mode_otp then some .otp
    else none
  else if hasParam ps "hotp" then
    if f.mode_hotp then some .hotp else none
  else if hasParam ps "totp" then
    if f.mode_totp then some .totp else none
  else if hasParam ps "pwhash" then
    if f.mode_pwhash then some .pwhash else none
  else none

/-- Events of one stick-daemon connection handler
(`stick_daemon.py`, `YHSM_Stick_Server.client_handler`, lines 104–140). -/
inductive SEv where
  | acquire
  | release
  | invoke (c : Nat)
  | errReply
deriving DecidableEq

/-- The lock state after a sequence of handler events, starting from `b`. -/
def lockAfter (b : Bool) : List SEv → Bool
  | [] => b
  | .acquire :: t => lockAfter true t
  | .release :: t => lockAfter false t
  | _ :: t => lockAfter b t

/-- `client_handler` as a trace function: process the connection's command
stream (`CMD_WRITE = 0 … CMD_UNLOCK = 5`; the protocol constants) with lock
state `hl`, emitting the handler's events.  `CMD_LOCK` acquires the global
lock if not held; with the lock held, `CMD_UNLOCK` releases it and any other
command is forwarded to the device via `invoke`; without the lock, any
non-lock command produces an error reply and `break`s the loop.  The
`finally` block releases a still-held lock when the stream ends. -/
def runHandler (hl : Bool) : List Nat → List SEv
  | [] => if hl then [.release] else []
  | c :: rest =>
    if c = 4 then
      if hl then runHandler hl rest else .acquire :: runHandler true rest
    else if hl then
      if c = 5 then .release :: runHandler false rest
      else .invoke c :: runHandler hl rest
    else
      [.errReply]

/-- Concrete HMAC stand-in used only to evaluate the parameterized model on
closed inputs (the theorems about canonicalization hold for every such
function). -/
def testHmac (key msg : String) : String :=
  "HMAC(" ++ key ++ "|" ++ msg ++ ")"

/-- Concrete base64 stand-in used only to evaluate the model on closed
inputs. -/
def testB64 (s : String) : String :=
  "b64:" ++ s

/-- The identity of the spec's OATH-HOTP scenario. -/
def demoUid : String :=
  "ubftcdcdckcf"

/-- The scenario's OATH-HOTP request: token id concatenated with the
6-digit code `359152`. -/
def demoParams : Params :=
  [("hotp", ["ubftcdcdckcf359152"])]

/-- An `oath` row for the scenario identity with the given counter. -/
def demoRow (c : Nat) : OathRow :=
  { key := demoUid, nonce := "", key_handle := 0, aead := "", oath_c := c }

/-- A device code function for the scenario: the presented code `359152`
matches exactly counter 3. -/
def demoCode : Nat → Nat :=
  fun c => if c = 3 then 359152 else 0

/-- `totp_valid_input = ^[cbdefghijklnrtuv0-9]{6,20}$` (the source compiles
this pattern separately from `hotp_valid_input`). -/
def totp_valid (s : String) : Bool :=
  decide (6 ≤ s.length) && decide (s.length ≤ 20) &&
    s.data.all (fun c => isModhexChar c || c.isDigit)

/-- `get_oath_totp_bits(params)` (lines 537–549): identical to
`get_oath_hotp_bits` with the `totp` parameter. -/
def get_oath_totp_bits (ps : Params) : Option (String × Nat) :=
  match getParam ps "totp" with
  | none => none
  | some hv =>
    let s := hv.headD ""
    match getParam ps "uid" with
    | some uidvals =>
      match decDigits? s.data with
      | some n => some (uidvals.headD "", n)
      | none => none
    | none =>
      let letters := s.data.takeWhile isModhexChar
      let digits := (s.data.dropWhile isModhexChar).takeWhile Char.isDigit
      if 6 ≤ digits.length then
        some (String.mk letters, digitsToNat (digits.take 8))
      else none

/-- Modelled from the spec: `pyhsm.oath_totp.search_for_oath_code` is not
part of the sources under review (only its caller is).  Per §4.3 of the spec
it probes time-counters in `[now - toleranceSteps, now + toleranceSteps]` in
ascending order and returns the first matching time-counter itself, or
`NotFound`.  This loop probes `w` consecutive time-counters from `t`. -/
def searchTotpLoop (codeAt : Nat → Nat) (otp : Nat) : Nat → Nat → Option Nat
  | _, 0 => none
  | t, w + 1 => if codeAt t = otp then some t else searchTotpLoop codeAt otp (t + 1) w

/-- Modelled from the spec: the TOTP search entry point
`search_for_oath_code(hsm, key_handle, nonce, aead, otp, interval,
tolerance)` with the device, record data and the wall clock abstracted into
`codeAt` (the device-computed code per time-counter) and `nowStep` (the
current time-counter, `time() / interval`). -/
def search_for_oath_totp_code (codeAt : Nat → Nat) (nowStep tolerance : Nat)
    (otp : Nat) : Option Nat :=
  searchTotpLoop codeAt otp (nowStep - tolerance) (2 * tolerance + 1)

/-- `validate_oath_totp(self, params)` (lines 438–488).  As for the HOTP
path, the device is abstracted into `codeAt`, and the table is passed twice
(`dbRead` at `db.get`, `dbUpd` at the counter update) to express a
concurrent commit between the two accesses; a sequential run has
`dbRead = dbUpd`. -/
def validate_oath_totp (codeAt : Nat → Nat) (nowStep tolerance : Nat)
    (ps : Params) (dbRead dbUpd : OathDb) : PyResult × OathDb :=
  match getParam ps "totp" with
  | none => (.exn, dbUpd)
  | some hv =>
    let from_key := hv.headD ""
    if ¬ totp_valid from_key then (.resp "ERR Invalid OATH-TOTP OTP", dbUpd)
    else
      match get_oath_totp_bits ps with
      | none => (.exn, dbUpd)
      | some (uid, otp) =>
        if uid = "" ∨ otp = 0 then (.resp "ERR Invalid OATH-TOTP input", dbUpd)
        else
          match db_get dbRead uid with
          | none => (.resp "ERR Internal error", dbUpd)
          | some entry =>
            match search_for_oath_totp_code codeAt nowStep tolerance otp with
            | none => (.resp "ERR Could not validate OATH-TOTP OTP", dbUpd)
            | some new_timecounter =>
              let upd := update_oath_hotp_c dbUpd entry.key new_timecounter
              if upd.2 then
                (.resp ("OK timecounter=" ++ hex4 new_timecounter), upd.1)
              else (.resp "ERR replayed OATH-TOTP", upd.1)

/-- The scenario request presented to the TOTP endpoint. -/
def demoTotpParams : Params :=
  [("totp", ["ubftcdcdckcf359152"])]

/-- Association-list lookup on a cons cell, in `if` form. -/
theorem lookup_cons_ite {β : Type} (pk : String) (pv : β) (t : List (String × β))
    (k : String) :
    ((pk, pv) :: t).lookup k = if k = pk then some pv else t.lookup k := by
  rw [List.lookup_cons]
  by_cases h : k = pk
  · simp [h]
  · have hb : (k == pk) = false := by simpa using h
    simp [h, hb]

theorem lookup_map_upd (k v : String) (m : StrMap)
    (h : m.any (fun p => p.1 == k) = true) :
    (m.map (fun p => if p.1 == k then (k, v) else p)).lookup k = some v := by
  induction m with
  | nil => simp at h
  | cons p t ih =>
    rcases p with ⟨pk, pv⟩
    rw [List.map_cons]
    by_cases hpk : pk = k
    · subst hpk
      have hhead : (if ((pk, pv).1 == pk) = true then (pk, v) else (pk, pv)) = (pk, v) := by
        simp
      rw [hhead, lookup_cons_ite, if_pos rfl]
    · have hb : (pk == k) = false := by simpa using hpk
      have h' : t.any (fun q => q.1 == k) = true := by simpa [hb] using h
      have hhead : (if ((pk, pv).1 == k) = true then (k, v) else (pk, pv)) = (pk, pv) := by
        simp [hb]
      rw [hhead, lookup_cons_ite, if_neg (Ne.symm hpk)]
      exact ih h'

theorem lookup_map_upd_ne (k v k' : String) (hk : k' ≠ k) (m : StrMap) :
    (m.map (fun p => if p.1 == k then (k, v) else p)).lookup k' = m.lookup k' := by
  induction m with
  | nil => rfl
  | cons p t ih =>
    rcases p with ⟨pk, pv⟩
    rw [List.map_cons]
    by_cases hpk : pk = k
    · subst hpk
      have hhead : (if ((pk, pv).1 == pk) = true then (pk, v) else (pk, pv)) = (pk, v) := by
        simp
      rw [hhead, lookup_cons_ite, lookup_cons_ite, if_neg hk, if_neg hk]
      exact ih
    · have hb : (pk == k) = false := by simpa using hpk
      have hhead : (if ((pk, pv).1 == k) = true then (k, v) else (pk, pv)) = (pk, pv) := by
        simp [hb]
      rw [hhead, lookup_cons_ite, lookup_cons_ite]
      by_cases hkp : k' = pk
      · rw [if_pos hkp, if_pos hkp]
      · rw [if_neg hkp, if_neg hkp]
        exact ih

theorem any_key_of_lookup_isSome (k : String) (m : StrMap)
    (h : (m.lookup k).isSome) : m.any (fun p => p.1 == k) = true := by
  rw [List.any_eq_true]
  rcases List.lookup_isSome_iff.mp h with ⟨p, hp, hk⟩
  exact ⟨p, hp, by simp [(beq_iff_eq.mp hk).symm]⟩

/-- Looking up the key just assigned by `setk` yields the assigned value. -/
theorem lookup_setk_self (m : StrMap) (k v : String) :
    (setk m k v).lookup k = some v := by
  unfold setk
  split
  · exact lookup_map_upd k v m (by assumption)
  · next hany =>
    have hnone : m.lookup k = none := by
      cases hl : m.lookup k with
      | none => rfl
      | some w => exact absurd (any_key_of_lookup_isSome k m (by simp [hl])) (by simp_all)
    rw [List.lookup_append, hnone]
    simp [lookup_cons_ite]

/-- `setk` does not change the binding of other keys. -/
theorem lookup_setk_ne (m : StrMap) (k v k' : String) (h : k' ≠ k) :
    (setk m k v).lookup k' = m.lookup k' := by
  unfold setk
  split
  · exact lookup_map_upd_ne k v k' h m
  · rw [List.lookup_append]
    cases hl : m.lookup k' with
    | some w => rfl
    | none => simp [lookup_cons_ite, h]

/-- Association-list lookup is invariant under permutation when the keys are
distinct. -/
theorem lookup_eq_of_perm {β : Type} (l1 l2 : List (String × β))
    (h : l1.Perm l2) (hnd : (l1.map Prod.fst).Nodup) (k : String) :
    l1.lookup k = l2.lookup k := by
  induction h with
  | nil => rfl
  | cons a h ih =>
    rcases a with ⟨ak, av⟩
    have hnd' : _ := (List.nodup_cons.mp (by simpa only [List.map_cons] using hnd)).2
    by_cases hk : k = ak
    · simp [lookup_cons_ite, hk]
    · simp [lookup_cons_ite, hk, ih hnd']
  | swap a b t =>
    rcases a with ⟨ak, av⟩
    rcases b with ⟨bk, bv⟩
    have hne : bk ≠ ak := by
      have h1 := (List.nodup_cons.mp (by simpa only [List.map_cons] using hnd)).1
      intro e
      exact h1 (by simp [e])
    rw [lookup_cons_ite, lookup_cons_ite, lookup_cons_ite, lookup_cons_ite]
    by_cases hkb : k = bk <;> by_cases hka : k = ak <;>
      simp_all
  | trans h1 h2 ih1 ih2 =>
    rw [ih1 hnd, ih2 ((h1.map Prod.fst).nodup_iff.mp hnd)]

/-- The row predicate of the conditional update's `WHERE` clause. -/
def updHit (k : String) (new_c : Nat) (r : OathRow) : Bool :=
  r.key == k && decide (new_c > r.oath_c)

theorem update_oath_hotp_c_eta (db : OathDb) (k : String) (new_c : Nat) :
    update_oath_hotp_c db k new_c =
      (db.map (fun r => if updHit k new_c r then { r with oath_c := new_c } else r),
       db.countP (updHit k new_c) == 1) := rfl

/-- With a unique matching row `r`, the number of rows affected by the
conditional update is 1 when `new_c` strictly exceeds the stored counter and
0 otherwise. -/
theorem countP_updHit (db : OathDb) (k : String) (new_c : Nat) (r : OathRow)
    (hget : db_get db k = some r) (hcount : keyCount db k = 1) :
    db.countP (updHit k new_c) = if r.oath_c < new_c then 1 else 0 := by
  induction db with
  | nil => simp [db_get] at hget
  | cons x t ih =>
    by_cases hx : x.key = k
    · have hrx : r = x := by
        have : db_get (x :: t) k = some x := by
          simp [db_get, List.find?_cons_of_pos, hx]
        rw [this] at hget
        exact (Option.some.injEq _ _ ▸ hget).symm
      subst hrx
      have ht0 : t.countP (fun q => q.key == k) = 0 := by
        have h2 : keyCount (r :: t) k = t.countP (fun q => q.key == k) + 1 := by
          simp [keyCount, List.countP_cons, hx]
        omega
      have htz : t.countP (updHit k new_c) = 0 := by
        rw [List.countP_eq_zero] at ht0 ⊢
        intro a ha hhit
        simp only [updHit, Bool.and_eq_true, beq_iff_eq, decide_eq_true_eq] at hhit
        exact ht0 a ha (by simp [hhit.1])
      rw [List.countP_cons, htz]
      by_cases hc : r.oath_c < new_c
      · simp [updHit, hx, hc]
      · simp [updHit, hx, hc]
    · have hget' : db_get t k = some r := by
        have hb : (x.key == k) = false := by simpa using hx
        simpa [db_get, List.find?_cons_of_neg, hb] using hget
      have hcount' : keyCount t k = 1 := by
        have := hcount
        simpa [keyCount, List.countP_cons, hx] using this
      have hhx : updHit k new_c x = false := by
        simp [updHit, hx]
      rw [List.countP_cons, hhx]
      simpa using ih hget' hcount'

/-- A failed conditional update leaves the table unchanged. -/
theorem update_unchanged_of_countP_zero (db : OathDb) (k : String) (new_c : Nat)
    (h : db.countP (updHit k new_c) = 0) :
    (update_oath_hotp_c db k new_c).1 = db := by
  rw [update_oath_hotp_c_eta]
  rw [List.countP_eq_zero] at h
  calc db.map (fun r => if updHit k new_c r then { r with oath_c := new_c } else r)
      = db.map id := List.map_congr_left (fun a ha => by simp [h a ha])
    _ = db := List.map_id db

/-- The update function preserves the `key` column of every row. -/
theorem updFun_key (k : String) (new_c : Nat) (r : OathRow) :
    ((fun r => if updHit k new_c r then { r with oath_c := new_c } else r) r).key
      = r.key := by
  by_cases h : updHit k new_c r <;> simp [h]

/-- `db.get` after a conditional update returns the (possibly updated) image
of the row it returned before. -/
theorem db_get_update (db : OathDb) (k k2 : String) (c : Nat) :
    db_get (update_oath_hotp_c db k2 c).1 k =
      (db_get db k).map
        (fun r => if updHit k2 c r then { r with oath_c := c } else r) := by
  rw [update_oath_hotp_c_eta, db_get, List.find?_map]
  have hp : ((fun r : OathRow => r.key == k) ∘
      fun r => if updHit k2 c r then { r with oath_c := c } else r)
      = fun r : OathRow => r.key == k := by
    funext r
    simp [Function.comp, updFun_key]
  rw [hp]
  rfl

/-- The number of rows with a given key is invariant under updates. -/
theorem keyCount_update (db : OathDb) (k k2 : String) (c : Nat) :
    keyCount (update_oath_hotp_c db k2 c).1 k = keyCount db k := by
  rw [update_oath_hotp_c_eta, keyCount, List.countP_map]
  have hp : ((fun r : OathRow => r.key == k) ∘
      fun r => if updHit k2 c r then { r with oath_c := c } else r)
      = fun r : OathRow => r.key == k := by
    funext r
    simp [Function.comp, updFun_key]
  rw [hp]
  rfl

/-- A single update never decreases the stored counter of any identity. -/
theorem update_counter_mono (db : OathDb) (k k2 : String) (c : Nat) (r : OathRow)
    (hget : db_get db k = some r) :
    ∃ r2, db_get (update_oath_hotp_c db k2 c).1 k = some r2 ∧
      r2.key = r.key ∧ r.oath_c ≤ r2.oath_c := by
  rw [db_get_update, hget]
  by_cases h : updHit k2 c r
  · have h' := h
    simp only [updHit, Bool.and_eq_true, beq_iff_eq, decide_eq_true_eq] at h'
    exact ⟨{ r with oath_c := c }, by simp [h], rfl, Nat.le_of_lt h'.2⟩
  · exact ⟨r, by simp [h], rfl, Nat.le_refl _⟩

/-- A sequence of updates never decreases the stored counter, and preserves
key multiplicity. -/
theorem applyUpdates_mono (us : List (String × Nat)) (db : OathDb) (k : String)
    (r : OathRow) (hget : db_get db k = some r) (hcount : keyCount db k = 1) :
    ∃ r2, db_get (applyUpdates us db) k = some r2 ∧ r2.key = r.key ∧
      r.oath_c ≤ r2.oath_c ∧ keyCount (applyUpdates us db) k = 1 := by
  induction us generalizing db r with
  | nil => exact ⟨r, hget, rfl, Nat.le_refl _, hcount⟩
  | cons u rest ih =>
    rcases update_counter_mono db k u.1 u.2 r hget with ⟨r1, hget1, hkey1, hle1⟩
    have hcount1 : keyCount (update_oath_hotp_c db u.1 u.2).1 k = 1 := by
      rw [keyCount_update]
      exact hcount
    rcases ih (update_oath_hotp_c db u.1 u.2).1 r1 hget1 hcount1 with
      ⟨r2, hget2, hkey2, hle2, hc2⟩
    exact ⟨r2, by simpa [applyUpdates] using hget2, by rw [hkey2, hkey1],
      Nat.le_trans hle1 hle2, by simpa [applyUpdates] using hc2⟩

/-- The search returns `c + j + 1` when the first match in the window is at
offset `j`. -/
theorem searchLoop_found (codeAt : Nat → Nat) (otp : Nat) :
    ∀ (w c j : Nat), j < w → codeAt (c + j) = otp →
      (∀ i, i < j → codeAt (c + i) ≠ otp) →
      searchLoop codeAt otp c w = some (c + j + 1) := by
  intro w
  induction w with
  | zero => intro c j hj; omega
  | succ w ih =>
    intro c j hj hmatch hearlier
    cases j with
    | zero =>
      simp only [Nat.add_zero] at hmatch
      simp [searchLoop, hmatch]
    | succ j' =>
      have hc : codeAt c ≠ otp := by
        have := hearlier 0 (Nat.succ_pos j')
        simpa using this
      have hrec := ih (c + 1) j' (Nat.lt_of_succ_lt_succ hj)
        (by rw [Nat.add_right_comm]; exact hmatch)
        (fun i hi => by
          rw [Nat.add_right_comm]
          exact hearlier (i + 1) (Nat.succ_lt_succ hi))
      simp only [searchLoop, hc, if_false]
      rw [hrec]
      congr 1
      omega

/-- The search fails when no counter in the window matches. -/
theorem searchLoop_none (codeAt : Nat → Nat) (otp : Nat) :
    ∀ (w c : Nat), (∀ i, i < w → codeAt (c + i) ≠ otp) →
      searchLoop codeAt otp c w = none := by
  intro w
  induction w with
  | zero => intro c _; rfl
  | succ w ih =>
    intro c h
    have hc : codeAt c ≠ otp := by simpa using h 0 (Nat.succ_pos w)
    simp only [searchLoop, hc, if_false]
    exact ih (c + 1) (fun i hi => by
      rw [Nat.add_right_comm]
      exact h (i + 1) (Nat.succ_lt_succ hi))

/-- An `OK counter=...` response line is never the replay-rejection line. -/
theorem ok_counter_ne_replayed (x : String) :
    ("OK counter=" ++ x) ≠ "ERR replayed OATH-HOTP" := by
  intro hs
  have h2 : ("OK counter=" ++ x).data.head? =
      ("ERR replayed OATH-HOTP" : String).data.head? := by
    rw [hs]
  rw [String.data_append, List.head?_append] at h2
  have h3 : ("OK counter=" : String).data.head? = some 'O' := rfl
  rw [h3] at h2
  simp [Option.or] at h2

/-- Reduction of `validate_oath_hotp` on the scenario request against a
one-row table: everything except the device search evaluates. -/
theorem validate_demo_reduce (codeAt : Nat → Nat) (c : Nat) (dbU : OathDb) :
    validate_oath_hotp codeAt 5 demoParams [demoRow c] dbU =
      match search_for_oath_code codeAt c 359152 5 with
      | none => (.resp "ERR Could not validate OATH-HOTP OTP", dbU)
      | some nc =>
        if (update_oath_hotp_c dbU demoUid nc).2 then
          (.resp ("OK counter=" ++ hex4 nc), (update_oath_hotp_c dbU demoUid nc).1)
        else (.resp "ERR replayed OATH-HOTP", (update_oath_hotp_c dbU demoUid nc).1) :=
  rfl

/-- Every `invoke` in a handler trace happens while the lock is held, and the
lock is always released by the end of the trace. -/
theorem runHandler_locked (cmds : List Nat) : ∀ hl : Bool,
    (∀ pre c post, runHandler hl cmds = pre ++ SEv.invoke c :: post →
      lockAfter hl pre = true) ∧
    lockAfter hl (runHandler hl cmds) = false := by
  induction cmds with
  | nil =>
    intro hl
    constructor
    · intro pre c post h
      cases hl <;> simp [runHandler] at h
      · exact absurd h (by cases pre <;> simp)
    · cases hl <;> simp [runHandler, lockAfter]
  | cons cmd rest ih =>
    intro hl
    by_cases h4 : cmd = 4
    · subst h4
      cases hl with
      | true =>
        constructor
        · intro pre c post h
          exact (ih true).1 pre c post (by simpa [runHandler] using h)
        · simpa [runHandler] using (ih true).2
      | false =>
        constructor
        · intro pre c post h
          simp only [runHandler, if_pos rfl, if_neg (Bool.false_ne_true)] at h
          cases pre with
          | nil => simp at h
          | cons e pre' =>
            have he : e = SEv.acquire ∧ runHandler true rest = pre' ++ SEv.invoke c :: post := by
              constructor
              · exact (List.cons.injEq _ _ _ _ ▸ h).1.symm
              · exact (List.cons.injEq _ _ _ _ ▸ h).2
            rw [he.1]
            simpa [lockAfter] using (ih true).1 pre' c post he.2
        · simp only [runHandler, if_pos rfl, if_neg (Bool.false_ne_true)]
          simpa [lockAfter] using (ih true).2
    · cases hl with
      | true =>
        by_cases h5 : cmd = 5
        · subst h5
          constructor
          · intro pre c post h
            simp only [runHandler, if_neg (by decide : ¬(5 = 4)), if_pos rfl] at h
            cases pre with
            | nil => simp at h
            | cons e pre' =>
              have he : e = SEv.release ∧ runHandler false rest = pre' ++ SEv.invoke c :: post := by
                constructor
                · exact (List.cons.injEq _ _ _ _ ▸ h).1.symm
                · exact (List.cons.injEq _ _ _ _ ▸ h).2
              rw [he.1]
              simpa [lockAfter] using (ih false).1 pre' c post he.2
          · simp only [runHandler, if_neg (by decide : ¬(5 = 4)), if_pos rfl]
            simpa [lockAfter] using (ih false).2
        · constructor
          · intro pre c post h
            simp only [runHandler, if_neg h4, if_neg h5] at h
            cases pre with
            | nil => simp [lockAfter]
            | cons e pre' =>
              have he : e = SEv.invoke cmd ∧ runHandler true rest = pre' ++ SEv.invoke c :: post := by
                constructor
                · exact (List.cons.injEq _ _ _ _ ▸ h).1.symm
                · exact (List.cons.injEq _ _ _ _ ▸ h).2
              rw [he.1]
              simpa [lockAfter] using (ih true).1 pre' c post he.2
          · simp only [runHandler, if_neg h4, if_neg h5]
            simpa [lockAfter] using (ih true).2
      | false =>
        constructor
        · intro pre c post h
          simp only [runHandler, if_neg h4] at h
          exact absurd h (by cases pre <;> simp)
        · simp [runHandler, h4, lockAfter]

theorem strListLe_total : ∀ as bs, strListLe as bs = true ∨ strListLe bs as = true := by
  intro as
  induction as with
  | nil => intro bs; left; rfl
  | cons a as ih =>
    intro bs
    cases bs with
    | nil => right; rfl
    | cons b bs =>
      by_cases hab : a.toNat < b.toNat
      · left
        simp [strListLe, hab]
      · by_cases hba : b.toNat < a.toNat
        · right
          simp [strListLe, hba]
        · rcases ih bs with h | h
          · left
            simpa [strListLe, hab, hba] using h
          · right
            simpa [strListLe, hab, hba] using h

theorem strListLe_trans : ∀ as bs cs, strListLe as bs = true → strListLe bs cs = true →
    strListLe as cs = true := by
  intro as
  induction as with
  | nil => intro bs cs _ _; rfl
  | cons a as ih =>
    intro bs cs h1 h2
    cases bs with
    | nil => simp [strListLe] at h1
    | cons b bs =>
      cases cs with
      | nil => simp [strListLe] at h2
      | cons c cs =>
        simp only [strListLe] at h1 h2 ⊢
        by_cases hab : a.toNat < b.toNat
        · by_cases hbc : b.toNat < c.toNat
          · simp [show a.toNat < c.toNat by omega]
          · by_cases hcb : c.toNat < b.toNat
            · simp [hbc, hcb] at h2
            · simp [show a.toNat < c.toNat by omega]
        · by_cases hba : b.toNat < a.toNat
          · simp [hab, hba] at h1
          · by_cases hbc : b.toNat < c.toNat
            · simp [show a.toNat < c.toNat by omega]
            · by_cases hcb : c.toNat < b.toNat
              · simp [hbc, hcb] at h2
              · have h1' : strListLe as bs = true := by simpa [hab, hba] using h1
                have h2' : strListLe bs cs = true := by simpa [hbc, hcb] using h2
                simp [show ¬ a.toNat < c.toNat by omega,
                  show ¬ c.toNat < a.toNat by omega]
                exact ih bs cs h1' h2'

theorem strListLe_antisymm : ∀ as bs, strListLe as bs = true → strListLe bs as = true →
    as = bs := by
  intro as
  induction as with
  | nil =>
    intro bs _ h2
    cases bs with
    | nil => rfl
    | cons b bs => simp [strListLe] at h2
  | cons a as ih =>
    intro bs h1 h2
    cases bs with
    | nil => simp [strListLe] at h1
    | cons b bs =>
      simp only [strListLe] at h1 h2
      by_cases hab : a.toNat < b.toNat
      · simp [show ¬ b.toNat < a.toNat by omega, hab] at h2
      · by_cases hba : b.toNat < a.toNat
        · simp [hab, hba] at h1
        · have h1' : strListLe as bs = true := by simpa [hab, hba] using h1
          have h2' : strListLe bs as = true := by simpa [hab, hba] using h2
          have hc : a = b := by
            have hn : a.toNat = b.toNat := by omega
            calc a = Char.ofNat a.toNat := (Char.ofNat_toNat a).symm
              _ = Char.ofNat b.toNat := by rw [hn]
              _ = b := Char.ofNat_toNat b
          rw [hc, ih bs h1' h2']

instance : IsTotal String (fun a b => strLe a b = true) :=
  ⟨fun a b => strListLe_total a.data b.data⟩

instance : IsTrans String (fun a b => strLe a b = true) :=
  ⟨fun a b c => strListLe_trans a.data b.data c.data⟩

instance : IsAntisymm String (fun a b => strLe a b = true) :=
  ⟨fun a b h1 h2 => by
    cases a
    cases b
    exact congrArg String.mk (strListLe_antisymm _ _ h1 h2)⟩

/-- Two dictionaries whose entries are permutations of each other have the
same sorted key sequence. -/
theorem sortedKeys_eq_of_perm {β : Type} (m1 m2 : List (String × β))
    (h : m1.Perm m2) : sortedKeys m1 = sortedKeys m2 := by
  apply List.eq_of_perm_of_sorted (r := fun a b => strLe a b = true)
  · exact ((List.perm_insertionSort _ _).trans (h.map Prod.fst)).trans
      (List.perm_insertionSort _ _).symm
  · exact List.sorted_insertionSort _ _
  · exact List.sorted_insertionSort _ _

/-- A syntactically valid YubiKey OTP (32 modhex characters). -/
def otp32 : String :=
  "cccccccccccccccccccccccccccccccc"

/-- A nonce of valid length (16 characters). -/
def nonce16 : String :=
  "0123456789abcdef"

/-- A one-entry client table: client id 1 with shared secret `"k"`. -/
def demoCids : List (Int × String) :=
  [(1, "k")]

/-- A device that validates every OTP with fixed counters. -/
def demoDevice : Device :=
  fun _ => .ok 5 6 0 77

/-- An OTP 2.0 request carrying an unregistered client id (999). -/
def paramsUnknown : Params :=
  [("otp", [otp32]), ("nonce", [nonce16]), ("id", ["999"]), ("h", ["sig"])]

/-- An OTP 2.0 request from registered client 1 with a wrong signature. -/
def paramsBadSig : Params :=
  [("otp", [otp32]), ("nonce", [nonce16]), ("id", ["1"]), ("h", ["nope"])]

/-- C3: `check_signature` accepts a wrong signature.  At the failing input —
client id 1 registered with secret `"k"`, request signature `"nope"`
different from the computed signature — the function returns
`(True, None)` instead of the rejection `(False, _)` the claim states: the
bad-signature branch only logs and falls through to `return True, None`. -/
theorem C3_check_signature_accepts_bad_signature :
    check_signature testHmac testB64 demoCids paramsBadSig = (true, none) ∧
    ("nope" : String) ≠ make_signature testHmac testB64 (joinedParams paramsBadSig) "k" ∧
    (check_signature testHmac testB64 demoCids paramsBadSig).1 ≠ false := by
  refine ⟨by decide, by decide, by decide⟩

/-- C10: a request that passes the lexical input check can still crash the
handler: with no `uid` parameter and `hotp=cccccc` (6 modhex characters, no
digit run), `hotp_valid_input` matches but the extraction regex does not, so
`m.groups()` raises an unhandled exception and no response line is produced
(`PyResult.exn`); and the digits-only code `000000` extracts OTP value 0,
which is falsy, so the request is rejected with
`ERR Invalid OATH-HOTP input`. -/
theorem C10_hotp_lexical_gap :
    hotp_valid "cccccc" = true ∧
    get_oath_hotp_bits [("hotp", ["cccccc"])] = none ∧
    validate_oath_hotp demoCode 5 [("hotp", ["cccccc"])] [] [] = (.exn, []) ∧
    get_oath_hotp_bits [("uid", [demoUid]), ("hotp", ["000000"])] = some (demoUid, 0) ∧
    validate_oath_hotp demoCode 5 [("uid", [demoUid]), ("hotp", ["000000"])] [] [] =
      (.resp "ERR Invalid OATH-HOTP input", []) := by
  refine ⟨by decide, by decide, by decide, by decide, by decide⟩

/-- C1: for an identity stored in exactly one row (the `PRIMARY KEY`
invariant), `update_oath_hotp_c` succeeds iff the supplied counter strictly
exceeds the stored one; on failure the table is unchanged; on success the
stored counter becomes the new value; and once an update with `new_c` has
succeeded, any later update for the same identity with `c2 ≤ new_c` fails,
whatever updates happen in between. -/
theorem C1_update_counter_strict_monotone (db : OathDb) (k : String)
    (r : OathRow) (new_c : Nat) (hcount : keyCount db k = 1)
    (hget : db_get db k = some r) :
    ((update_oath_hotp_c db k new_c).2 = true ↔ r.oath_c < new_c) ∧
    ((update_oath_hotp_c db k new_c).2 = false →
      (update_oath_hotp_c db k new_c).1 = db) ∧
    ((update_oath_hotp_c db k new_c).2 = true →
      db_get (update_oath_hotp_c db k new_c).1 k = some { r with oath_c := new_c }) ∧
    (∀ us c2, r.oath_c < new_c → c2 ≤ new_c →
      (update_oath_hotp_c
        (applyUpdates us (update_oath_hotp_c db k new_c).1) k c2).2 = false) := by
  have hcnt := countP_updHit db k new_c r hget hcount
  have hflag : (update_oath_hotp_c db k new_c).2
      = (db.countP (updHit k new_c) == 1) := by
    rw [update_oath_hotp_c_eta]
  refine ⟨?_, ?_, ?_, ?_⟩
  · rw [hflag, hcnt]
    by_cases hc : r.oath_c < new_c <;> simp [hc]
  · intro hfail
    rw [hflag, hcnt] at hfail
    by_cases hc : r.oath_c < new_c
    · simp [hc] at hfail
    · exact update_unchanged_of_countP_zero db k new_c (by simp [hcnt, hc])
  · intro hok
    rw [hflag, hcnt] at hok
    by_cases hc : r.oath_c < new_c
    · rw [db_get_update, hget]
      have hhit : updHit k new_c r = true := by
        have hk : r.key = k := by
          have := List.find?_some (p := fun q : OathRow => q.key == k) (by
            simpa [db_get] using hget)
          simpa using this
        simp [updHit, hk, hc]
      simp [hhit]
    · simp [hc] at hok
  · intro us c2 hc hle
    have hkey : r.key = k := by
      have := List.find?_some (p := fun q : OathRow => q.key == k) (by
        simpa [db_get] using hget)
      simpa using this
    have hget1 : db_get (update_oath_hotp_c db k new_c).1 k
        = some { r with oath_c := new_c } := by
      rw [db_get_update, hget]
      simp [updHit, hkey, hc]
    have hcount1 : keyCount (update_oath_hotp_c db k new_c).1 k = 1 := by
      rw [keyCount_update]
      exact hcount
    rcases applyUpdates_mono us (update_oath_hotp_c db k new_c).1 k
        { r with oath_c := new_c } hget1 hcount1 with ⟨r2, hget2, hkey2, hle2, hc2⟩
    have hcnt2 := countP_updHit (applyUpdates us (update_oath_hotp_c db k new_c).1)
      k c2 r2 hget2 hc2
    rw [update_oath_hotp_c_eta]
    simp only [hcnt2]
    have : ¬ r2.oath_c < c2 := by
      simp only [OathRow.mk.injEq] at hle2
      omega
    simp [this]

/-- Witness for C1: seeding `ubftcdcdckcf` at counter 0, the update to 4
succeeds, and after a later successful update to 9 the update back to 3
fails. -/
theorem C1_update_counter_strict_monotone_witness :
    (update_oath_hotp_c [demoRow 0] demoUid 4).2 = true ∧
    (update_oath_hotp_c
      (applyUpdates [(demoUid, 9)] (update_oath_hotp_c [demoRow 0] demoUid 4).1)
      demoUid 3).2 = false := by
  have h := C1_update_counter_strict_monotone [demoRow 0] demoUid (demoRow 0) 4
    (by decide) (by decide)
  exact ⟨h.1.mpr (by decide), h.2.2.2 [(demoUid, 9)] 3 (by decide) (by decide)⟩

/-- C2: the signature computed by `make_signature` depends only on the set of
`(name, value)` pairs: two parameter mappings with distinct keys that are
permutations of each other yield the identical signature string, for every
HMAC and base64 function and every key, because canonicalization sorts by
key name before joining. -/
theorem C2_make_signature_order_independent
    (hmacSha1 : String → String → String) (b64encode : String → String)
    (hmac_key : String) (p1 p2 : Params)
    (hnd : (p1.map Prod.fst).Nodup) (hperm : p1.Perm p2) :
    make_signature hmacSha1 b64encode (joinedParams p1) hmac_key =
      make_signature hmacSha1 b64encode (joinedParams p2) hmac_key := by
  have hjperm : (joinedParams p1).Perm (joinedParams p2) := hperm.map _
  have hjkeys : (joinedParams p1).map Prod.fst = p1.map Prod.fst := by
    simp [joinedParams]
  have hjnd : ((joinedParams p1).map Prod.fst).Nodup := by
    rw [hjkeys]
    exact hnd
  have hc : canonString (joinedParams p1) = canonString (joinedParams p2) := by
    unfold canonString
    rw [sortedKeys_eq_of_perm _ _ hjperm]
    apply congrArg (String.intercalate "&")
    apply List.map_congr_left
    intro k _
    rw [lookup_eq_of_perm _ _ hjperm hjnd k]
  unfold make_signature
  rw [hc]

/-- Witness for C2: the mapping `{b: 2, a: 1, h: x}` built in two insertion
orders signs identically. -/
theorem C2_make_signature_order_independent_witness :
    make_signature testHmac testB64
        (joinedParams [("b", ["2"]), ("a", ["1"]), ("h", ["x"])]) "K" =
      make_signature testHmac testB64
        (joinedParams [("h", ["x"]), ("a", ["1"]), ("b", ["2"])]) "K" :=
  C2_make_signature_order_independent testHmac testB64 "K"
    [("b", ["2"]), ("a", ["1"]), ("h", ["x"])]
    [("h", ["x"]), ("a", ["1"]), ("b", ["2"])]
    (by decide) (by decide)

/-- Counterexample to C4: with client 1 registered under secret `"k"`, the
unknown-id request (`id=999`) and the wrong-signature request (`id=1`,
`h=nope`) produce responses with different field sets — the former is signed
(carries an `h` field, with status `NO_SUCH_CLIENT`), while the latter is
not rejected at all: it proceeds to device validation and its response
carries no `h` field.  The response shapes are therefore not byte-identical
and the two conditions are distinguishable on the wire. -/
theorem C4_response_shapes_differ_counterexample :
    responseFields
        (validate_yubikey_otp testHmac testB64 demoCids demoDevice "T" paramsUnknown) ≠
      responseFields
        (validate_yubikey_otp testHmac testB64 demoCids demoDevice "T" paramsBadSig) ∧
    (responseFields
        (validate_yubikey_otp testHmac testB64 demoCids demoDevice "T" paramsUnknown)).contains
      "h" = true ∧
    (responseFields
        (validate_yubikey_otp testHmac testB64 demoCids demoDevice "T" paramsBadSig)).contains
      "h" = false := by
  refine ⟨by decide, by decide, by decide⟩

/-- C4 amended: an unknown numeric client id is rejected with status
`NO_SUCH_CLIENT` and the response is still signed, using the fixed null key
`chr(0)`; but a wrong signature for a registered client id is not rejected —
`check_signature` falls through to `(True, None)` — so the request proceeds
to validation and its response is built with no client key, i.e. unsigned.
The two responses are therefore distinguishable on the wire. -/
theorem C4_unknown_client_null_key_amended
    (hm : String → String → String) (b64 : String → String)
    (cids : List (Int × String)) (ps : Params) (idv : List String) (n : Int)
    (hid : getParam ps "id" = some idv)
    (hparse : parseIntPy (idv.headD "") = some n) :
    (cids.lookup n = none →
      check_signature hm b64 cids ps = (false, none) ∧
      (otpPreVres hm b64 cids ps).2 = some nullKey ∧
      (otpPreVres hm b64 cids ps).1.lookup "status" = some "NO_SUCH_CLIENT") ∧
    (∀ key hv, cids.lookup n = some key → key ≠ "" → getParam ps "h" = some hv →
      hv.headD "" ≠ make_signature hm b64 (joinedParams ps) key →
      check_signature hm b64 cids ps = (true, none) ∧
      (otpPreVres hm b64 cids ps).2 = none) := by
  constructor
  · intro hlk
    have hck : check_signature hm b64 cids ps = (false, none) := by
      simp only [check_signature, hid, hparse, hlk]
    refine ⟨hck, ?_, ?_⟩
    · simp [otpPreVres, hck]
    · simp only [otpPreVres, hck]
      simp [lookup_setk_self]
  · intro key hv hlk hkey hh hne
    have hck : check_signature hm b64 cids ps = (true, none) := by
      simp only [check_signature, hid, hparse, hlk, hh]
      rw [if_neg hkey, if_neg hne]
    refine ⟨hck, ?_⟩
    simp [otpPreVres, hck]

/-- Witness for C4's amended statement, at the two concrete requests. -/
theorem C4_unknown_client_null_key_amended_witness :
    (otpPreVres testHmac testB64 demoCids paramsUnknown).2 = some nullKey ∧
    check_signature testHmac testB64 demoCids paramsBadSig = (true, none) := by
  constructor
  · exact ((C4_unknown_client_null_key_amended testHmac testB64 demoCids
      paramsUnknown ["999"] 999 (by decide) (by decide)).1 (by decide)).2.1
  · exact ((C4_unknown_client_null_key_amended testHmac testB64 demoCids
      paramsBadSig ["1"] 1 (by decide) (by decide)).2 "k" ["nope"] (by decide)
      (by decide) (by decide) (by decide)).1

/-- Counterexample to C5: when the search succeeds (match at counter 3,
`new_counter = 4`) but the conditional update fails because the stored
counter moved to 7 between `db.get` and the update (a losing race), the
response line is `ERR replayed OATH-HOTP` — not the no-match line
`ERR Could not validate OATH-HOTP OTP` that the claim says it equals. -/
theorem C5_failed_advance_line_counterexample :
    validate_oath_hotp demoCode 5 demoParams [demoRow 0] [demoRow 7] =
      (.resp "ERR replayed OATH-HOTP", [demoRow 7]) ∧
    (PyResult.resp "ERR replayed OATH-HOTP") ≠
      (PyResult.resp "ERR Could not validate OATH-HOTP OTP") := by
  refine ⟨by decide, by decide⟩

/-- C5 amended: in both OATH-HOTP and OATH-TOTP validation, a rejection
caused by a failed counter advance produces a dedicated line —
`ERR replayed OATH-HOTP` / `ERR replayed OATH-TOTP` — which differs from the
corresponding no-match line (`ERR Could not validate OATH-HOTP OTP` /
`ERR Could not validate OATH-TOTP OTP`); a search with no match produces the
no-match line with the table untouched; and re-presenting an
already-accepted HOTP code (whose counter was advanced, so the code matches
nothing in the new window) is rejected via the no-match path with
`ERR Could not validate OATH-HOTP OTP`, the counter unchanged. -/
theorem C5_replayed_line_distinct_amended :
    (∀ (codeAt : Nat → Nat) (w : Nat) (ps : Params) (hv : List String)
       (uid : String) (otp nc : Nat) (entry : OathRow) (dbR dbU : OathDb),
      getParam ps "hotp" = some hv →
      hotp_valid (hv.headD "") = true →
      get_oath_hotp_bits ps = some (uid, otp) →
      uid ≠ "" → otp ≠ 0 →
      db_get dbR uid = some entry →
      search_for_oath_code codeAt entry.oath_c otp w = some nc →
      (update_oath_hotp_c dbU entry.key nc).2 = false →
      (validate_oath_hotp codeAt w ps dbR dbU).1 = .resp "ERR replayed OATH-HOTP") ∧
    (PyResult.resp "ERR replayed OATH-HOTP") ≠
      (PyResult.resp "ERR Could not validate OATH-HOTP OTP") ∧
    (∀ (codeAt : Nat → Nat) (nowStep tolerance : Nat) (ps : Params)
       (hv : List String) (uid : String) (otp nc : Nat) (entry : OathRow)
       (dbR dbU : OathDb),
      getParam ps "totp" = some hv →
      totp_valid (hv.headD "") = true →
      get_oath_totp_bits ps = some (uid, otp) →
      uid ≠ "" → otp ≠ 0 →
      db_get dbR uid = some entry →
      search_for_oath_totp_code codeAt nowStep tolerance otp = some nc →
      (update_oath_hotp_c dbU entry.key nc).2 = false →
      (validate_oath_totp codeAt nowStep tolerance ps dbR dbU).1 =
        .resp "ERR replayed OATH-TOTP") ∧
    (PyResult.resp "ERR replayed OATH-TOTP") ≠
      (PyResult.resp "ERR Could not validate OATH-TOTP OTP") ∧
    (∀ (codeAt : Nat → Nat) (nowStep tolerance : Nat) (ps : Params)
       (hv : List String) (uid : String) (otp : Nat) (entry : OathRow)
       (dbR dbU : OathDb),
      getParam ps "totp" = some hv →
      totp_valid (hv.headD "") = true →
      get_oath_totp_bits ps = some (uid, otp) →
      uid ≠ "" → otp ≠ 0 →
      db_get dbR uid = some entry →
      search_for_oath_totp_code codeAt nowStep tolerance otp = none →
      validate_oath_totp codeAt nowStep tolerance ps dbR dbU =
        (.resp "ERR Could not validate OATH-TOTP OTP", dbU)) ∧
    (∀ codeAt : Nat → Nat,
      codeAt 0 ≠ 359152 → codeAt 1 ≠ 359152 → codeAt 2 ≠ 359152 →
      codeAt 3 = 359152 → (∀ j, 4 ≤ j → j ≤ 8 → codeAt j ≠ 359152) →
      validate_oath_hotp codeAt 5 demoParams [demoRow 0] [demoRow 0] =
        (.resp "OK counter=0004", [demoRow 4]) ∧
      validate_oath_hotp codeAt 5 demoParams [demoRow 4] [demoRow 4] =
        (.resp "ERR Could not validate OATH-HOTP OTP", [demoRow 4])) := by
  refine ⟨?_, by decide, ?_, by decide, ?_, ?_⟩
  · intro codeAt w ps hv uid otp nc entry dbR dbU hhv hvalid hbits huid hotpne
      hentry hsearch hupd
    simp only [validate_oath_hotp, hhv, hbits, hentry, hsearch]
    rw [if_neg (not_not_intro hvalid)]
    rw [if_neg (by simp [huid, hotpne])]
    simp [hupd]
  · intro codeAt nowStep tolerance ps hv uid otp nc entry dbR dbU hhv hvalid
      hbits huid hotpne hentry hsearch hupd
    simp only [validate_oath_totp, hhv, hbits, hentry, hsearch]
    rw [if_neg (not_not_intro hvalid)]
    rw [if_neg (by simp [huid, hotpne])]
    simp [hupd]
  · intro codeAt nowStep tolerance ps hv uid otp entry dbR dbU hhv hvalid
      hbits huid hotpne hentry hsearch
    simp only [validate_oath_totp, hhv, hbits, hentry, hsearch]
    rw [if_neg (not_not_intro hvalid)]
    rw [if_neg (by simp [huid, hotpne])]
  · intro codeAt h0 h1 h2 h3 hwin
    have hs1 : search_for_oath_code codeAt 0 359152 5 = some 4 := by
      have := searchLoop_found codeAt 359152 5 0 3 (by omega) (by simpa using h3)
        (fun i hi => by interval_cases i <;> simp_all)
      simpa [search_for_oath_code] using this
    have hs2 : search_for_oath_code codeAt 4 359152 5 = none := by
      exact searchLoop_none codeAt 359152 5 4
        (fun i hi => hwin (4 + i) (by omega) (by omega))
    constructor
    · rw [validate_demo_reduce codeAt 0 [demoRow 0], hs1]
      decide
    · rw [validate_demo_reduce codeAt 4 [demoRow 4], hs2]

/-- Witness for C5's amended statement: the concrete code function matching
only counter 3 gives acceptance then a no-match replay rejection on the
HOTP path, and a losing race on the TOTP path (stored counter moved to 7)
gives the dedicated `ERR replayed OATH-TOTP` line. -/
theorem C5_replayed_line_distinct_amended_witness :
    (validate_oath_hotp demoCode 5 demoParams [demoRow 0] [demoRow 0] =
      (.resp "OK counter=0004", [demoRow 4]) ∧
    validate_oath_hotp demoCode 5 demoParams [demoRow 4] [demoRow 4] =
      (.resp "ERR Could not validate OATH-HOTP OTP", [demoRow 4])) ∧
    (validate_oath_totp demoCode 3 1 demoTotpParams [demoRow 0] [demoRow 7]).1 =
      .resp "ERR replayed OATH-TOTP" :=
  ⟨C5_replayed_line_distinct_amended.2.2.2.2.2 demoCode (by decide) (by decide)
    (by decide) (by decide)
    (fun j h4 h8 => by interval_cases j <;> decide),
   C5_replayed_line_distinct_amended.2.2.1 demoCode 3 1 demoTotpParams
    ["ubftcdcdckcf359152"] demoUid 359152 3 (demoRow 0) [demoRow 0] [demoRow 7]
    (by decide) (by decide) (by decide) (by decide) (by decide) (by decide)
    (by decide) (by decide)⟩

/-- C6 (search modelled from the spec, see `search_for_oath_code`): for
every OATH-HOTP request whose code first matches counter `entry.oath_c + j`
within the window of `w` counters starting at the stored counter of its
(uniquely keyed) record, the search returns the counter following the match,
the server responds `OK counter=` followed by that counter in four-digit
hexadecimal, the stored counter becomes that value, and — for any state of
the table at update time — the `OK` response is produced only when the
conditional store update succeeded.  The last conjunct is the spec's
scenario: a token enrolled at counter 0 whose code matches counter 3 within
a window of 5 gets response `OK counter=0004` and stored counter 4. -/
theorem C6_hotp_scenario_ok_counter (codeAt : Nat → Nat) (w : Nat)
    (ps : Params) (hv : List String) (uid : String) (otp : Nat)
    (entry : OathRow) (db : OathDb) (j : Nat)
    (hhv : getParam ps "hotp" = some hv)
    (hvalid : hotp_valid (hv.headD "") = true)
    (hbits : get_oath_hotp_bits ps = some (uid, otp))
    (huid : uid ≠ "") (hotpne : otp ≠ 0)
    (hentry : db_get db uid = some entry)
    (hcount : keyCount db uid = 1)
    (hj : j < w)
    (hmatch : codeAt (entry.oath_c + j) = otp)
    (hfirst : ∀ i, i < j → codeAt (entry.oath_c + i) ≠ otp) :
    search_for_oath_code codeAt entry.oath_c otp w =
      some (entry.oath_c + j + 1) ∧
    validate_oath_hotp codeAt w ps db db =
      (.resp ("OK counter=" ++ hex4 (entry.oath_c + j + 1)),
       (update_oath_hotp_c db uid (entry.oath_c + j + 1)).1) ∧
    db_get (validate_oath_hotp codeAt w ps db db).2 uid =
      some { entry with oath_c := entry.oath_c + j + 1 } ∧
    (∀ db2, (validate_oath_hotp codeAt w ps db db2).1 =
        .resp ("OK counter=" ++ hex4 (entry.oath_c + j + 1)) →
      (update_oath_hotp_c db2 uid (entry.oath_c + j + 1)).2 = true) ∧
    (∀ codeAt2 : Nat → Nat,
      codeAt2 0 ≠ 359152 → codeAt2 1 ≠ 359152 → codeAt2 2 ≠ 359152 →
      codeAt2 3 = 359152 →
      validate_oath_hotp codeAt2 5 demoParams [demoRow 0] [demoRow 0] =
        (.resp "OK counter=0004", [demoRow 4])) := by
  have hsearch : search_for_oath_code codeAt entry.oath_c otp w =
      some (entry.oath_c + j + 1) :=
    searchLoop_found codeAt otp w entry.oath_c j hj hmatch hfirst
  have hek : entry.key = uid := by
    have := List.find?_some (p := fun q : OathRow => q.key == uid) (by
      simpa [db_get] using hentry)
    simpa using this
  have hlt : entry.oath_c < entry.oath_c + j + 1 := by omega
  have hcnt := countP_updHit db uid (entry.oath_c + j + 1) entry hentry hcount
  have hupd : (update_oath_hotp_c db uid (entry.oath_c + j + 1)).2 = true := by
    rw [update_oath_hotp_c_eta]
    simp [hcnt, hlt]
  have hval : validate_oath_hotp codeAt w ps db db =
      (.resp ("OK counter=" ++ hex4 (entry.oath_c + j + 1)),
       (update_oath_hotp_c db uid (entry.oath_c + j + 1)).1) := by
    simp only [validate_oath_hotp, hhv, hbits, hentry, hsearch]
    rw [if_neg (not_not_intro hvalid)]
    rw [if_neg (by simp [huid, hotpne])]
    rw [hek]
    simp [hupd]
  refine ⟨hsearch, hval, ?_, ?_, ?_⟩
  · rw [hval]
    rw [db_get_update, hentry]
    have hhit : updHit uid (entry.oath_c + j + 1) entry = true := by
      simp [updHit, hek, hlt]
    simp [hhit]
  · intro db2 hok
    by_cases hupd2 : (update_oath_hotp_c db2 uid (entry.oath_c + j + 1)).2
    · exact hupd2
    · exfalso
      have hb : (update_oath_hotp_c db2 uid (entry.oath_c + j + 1)).2 = false := by
        simpa using hupd2
      have hval2 : (validate_oath_hotp codeAt w ps db db2).1 =
          .resp "ERR replayed OATH-HOTP" := by
        simp only [validate_oath_hotp, hhv, hbits, hentry, hsearch]
        rw [if_neg (not_not_intro hvalid)]
        rw [if_neg (by simp [huid, hotpne])]
        rw [hek]
        simp [hb]
      rw [hval2] at hok
      refine ok_counter_ne_replayed (hex4 (entry.oath_c + j + 1)) ?_
      injection hok with hs
      exact hs.symm
  · intro codeAt2 h0 h1 h2 h3
    have hs1 : search_for_oath_code codeAt2 0 359152 5 = some 4 := by
      have := searchLoop_found codeAt2 359152 5 0 3 (by omega) (by simpa using h3)
        (fun i hi => by interval_cases i <;> simp_all)
      simpa [search_for_oath_code] using this
    rw [validate_demo_reduce codeAt2 0 [demoRow 0], hs1]
    decide

/-- Witness for C6 at the concrete scenario: token enrolled at counter 0,
code `359152` matching counter 3 first, window 5. -/
theorem C6_hotp_scenario_ok_counter_witness :
    search_for_oath_code demoCode 0 359152 5 = some 4 ∧
    validate_oath_hotp demoCode 5 demoParams [demoRow 0] [demoRow 0] =
      (.resp "OK counter=0004", [demoRow 4]) ∧
    db_get (validate_oath_hotp demoCode 5 demoParams [demoRow 0] [demoRow 0]).2
      demoUid = some (demoRow 4) := by
  have h := C6_hotp_scenario_ok_counter demoCode 5 demoParams
    ["ubftcdcdckcf359152"] demoUid 359152 (demoRow 0) [demoRow 0] 3
    (by decide) (by decide) (by decide) (by decide) (by decide) (by decide)
    (by decide) (by decide) (by decide)
    (fun i hi => by interval_cases i <;> decide)
  exact ⟨h.1, h.2.1, h.2.2.1⟩

/-- Counterexample to C7: a request carrying two routing keys (`otp` and
`hotp`) is not rejected — with OTP 2.0 enabled, the `otp` handler runs even
though more than one of the four routing keys is present, because the
routing is an `if/elif` chain. -/
theorem C7_multiple_keys_not_rejected_counterexample :
    dispatchMode ⟨false, true, true, true, true⟩ [("otp", ["x"]), ("hotp", ["y"])] =
      some VMode.otp ∧
    hasParam [("otp", ["x"]), ("hotp", ["y"])] "otp" = true ∧
    hasParam [("otp", ["x"]), ("hotp", ["y"])] "hotp" = true := by
  refine ⟨by decide, by decide, by decide⟩

/-- C7 amended: a mode handler runs only when at least one of the four
routing keys is present (none present → no handler, no result); when several
are present the `if/elif` chain selects the first in the priority order
`otp`, `hotp`, `totp`, `pwhash` rather than rejecting the request. -/
theorem C7_routing_priority_amended (f : ValFlags) (ps : Params) :
    (∀ m, dispatchMode f ps = some m → hasParam ps (routingKey m) = true) ∧
    (dispatchMode f ps = some .hotp → hasParam ps "otp" = false) ∧
    (dispatchMode f ps = some .totp →
      hasParam ps "otp" = false ∧ hasParam ps "hotp" = false) ∧
    (dispatchMode f ps = some .pwhash →
      hasParam ps "otp" = false ∧ hasParam ps "hotp" = false ∧
      hasParam ps "totp" = false) ∧
    (hasParam ps "otp" = false → hasParam ps "hotp" = false →
      hasParam ps "totp" = false → hasParam ps "pwhash" = false →
      dispatchMode f ps = none) ∧
    (hasParam ps "otp" = true → f.mode_short_otp = false → f.mode_otp = true →
      dispatchMode f ps = some .otp) := by
  refine ⟨?_, ?_, ?_, ?_, ?_, ?_⟩
  · intro m hm
    unfold dispatchMode at hm
    split_ifs at hm <;>
      (injection hm with hm2
       subst hm2
       simp_all [routingKey])
  · intro hm
    unfold dispatchMode at hm
    split_ifs at hm <;> simp_all
  · intro hm
    unfold dispatchMode at hm
    split_ifs at hm <;> simp_all
  · intro hm
    unfold dispatchMode at hm
    split_ifs at hm <;> simp_all
  · intro h1 h2 h3 h4
    simp [dispatchMode, h1, h2, h3, h4]
  · intro h1 hs ho
    simp [dispatchMode, h1, hs, ho]

/-- Witness for C7's amended statement: with only `hotp` enabled and present,
the `hotp` handler runs; with no routing key, nothing runs. -/
theorem C7_routing_priority_amended_witness :
    dispatchMode ⟨false, true, true, true, true⟩ [("otp", ["x"])] = some VMode.otp ∧
    dispatchMode ⟨false, true, true, true, true⟩ [("nonce", ["x"])] = none := by
  constructor
  · exact (C7_routing_priority_amended ⟨false, true, true, true, true⟩
      [("otp", ["x"])]).2.2.2.2.2 (by decide) (by decide) (by decide)
  · exact (C7_routing_priority_amended ⟨false, true, true, true, true⟩
      [("nonce", ["x"])]).2.2.2.2.1 (by decide) (by decide) (by decide) (by decide)

/-- C8: the stick daemon never forwards a device command for a connection
that does not hold the lock — every `invoke` in a handler trace happens at a
point where the lock is held; the lock is always released by the time the
handler ends; and a connection whose first command is not `CMD_LOCK` (4)
gets an error reply and is terminated immediately, with nothing invoked. -/
theorem C8_daemon_lock_protocol (cmds : List Nat) :
    (∀ pre c post, runHandler false cmds = pre ++ SEv.invoke c :: post →
      lockAfter false pre = true) ∧
    lockAfter false (runHandler false cmds) = false ∧
    (∀ c rest, cmds = c :: rest → c ≠ 4 →
      runHandler false cmds = [SEv.errReply]) := by
  refine ⟨(runHandler_locked cmds false).1, (runHandler_locked cmds false).2, ?_⟩
  intro c rest hcmds hc
  subst hcmds
  simp [runHandler, hc]

/-- Witness for C8: a first command of `write` (0) is refused and terminates
the connection, and the trace of `lock; write; unlock` ends unlocked with
its `invoke` after the acquire. -/
theorem C8_daemon_lock_protocol_witness :
    runHandler false [0, 1] = [SEv.errReply] ∧
    lockAfter false (runHandler false [4, 0]) = false ∧
    lockAfter false [SEv.acquire] = true := by
  refine ⟨(C8_daemon_lock_protocol [0, 1]).2.2 0 [1] rfl (by decide),
    (C8_daemon_lock_protocol [4, 0]).2.1,
    (C8_daemon_lock_protocol [4, 0]).1 [SEv.acquire] 0 [SEv.release] (by decide)⟩

/-- C9: for every OTP 2.0 request that carries an `sl` parameter, the guard
comparing `params["sl"]` (a list) to the strings `"100"` and `"secure"` is
never true, so the status before the device step is `BACKEND_ERROR` when
signature checking passes, and in general one of `BACKEND_ERROR`,
`NO_SUCH_CLIENT`, `BAD_SIGNATURE`; consequently the trust device (and the
clock) are never consulted: the response does not depend on them. -/
theorem C9_sl_guard_forces_backend_error
    (hm : String → String → String) (b64 : String → String)
    (cids : List (Int × String)) (ps : Params) (slv : List String)
    (hsl : getParam ps "sl" = some slv) :
    pyEq (.plist slv) (.pstr "100") = false ∧
    pyEq (.plist slv) (.pstr "secure") = false ∧
    ((check_signature hm b64 cids ps).1 = true →
      (otpPreVres hm b64 cids ps).1.lookup "status" = some "BACKEND_ERROR") ∧
    ((otpPreVres hm b64 cids ps).1.lookup "status" = some "BACKEND_ERROR" ∨
     (otpPreVres hm b64 cids ps).1.lookup "status" = some "NO_SUCH_CLIENT" ∨
     (otpPreVres hm b64 cids ps).1.lookup "status" = some "BAD_SIGNATURE") ∧
    (∀ d1 d2 now1 now2,
      validate_yubikey_otp hm b64 cids d1 now1 ps =
        validate_yubikey_otp hm b64 cids d2 now2 ps) := by
  have hpy1 : pyEq (.plist slv) (.pstr "100") = false := rfl
  have hpy2 : pyEq (.plist slv) (.pstr "secure") = false := rfl
  have hstatus : (otpPreVres hm b64 cids ps).1.lookup "status" = some "BACKEND_ERROR" ∨
      (otpPreVres hm b64 cids ps).1.lookup "status" = some "NO_SUCH_CLIENT" ∨
      (otpPreVres hm b64 cids ps).1.lookup "status" = some "BAD_SIGNATURE" := by
    rcases hck : check_signature hm b64 cids ps with ⟨b, ok⟩
    cases b
    · cases ok with
      | none =>
        right; left
        simp [otpPreVres, hck, lookup_setk_self]
      | some k =>
        right; right
        simp [otpPreVres, hck, lookup_setk_self]
    · left
      simp [otpPreVres, hck, hsl, hpy1, hpy2, lookup_setk_self]
  have hok : (check_signature hm b64 cids ps).1 = true →
      (otpPreVres hm b64 cids ps).1.lookup "status" = some "BACKEND_ERROR" := by
    intro hb
    rcases hck : check_signature hm b64 cids ps with ⟨b, ok⟩
    rw [hck] at hb
    subst hb
    simp [otpPreVres, hck, hsl, hpy1, hpy2, lookup_setk_self]
  refine ⟨hpy1, hpy2, hok, hstatus, ?_⟩
  intro d1 d2 now1 now2
  have hsome : ((otpPreVres hm b64 cids ps).1.lookup "status").isSome := by
    rcases hstatus with h | h | h <;> simp [h]
  unfold validate_yubikey_otp otpDeviceVres
  simp only [hsome, if_true]

/-- Witness for C9 at a concrete request with `sl=100`: the guard is false,
the status is `BACKEND_ERROR`, and two different devices (one accepting, one
failing) produce the same response. -/
theorem C9_sl_guard_forces_backend_error_witness :
    pyEq (.plist ["100"]) (.pstr "100") = false ∧
    (otpPreVres testHmac testB64 (([]) : List (Int × String))
      [("otp", [otp32]), ("nonce", [nonce16]), ("sl", ["100"])]).1.lookup "status" =
      some "BACKEND_ERROR" ∧
    validate_yubikey_otp testHmac testB64 (([]) : List (Int × String)) demoDevice "T1"
        [("otp", [otp32]), ("nonce", [nonce16]), ("sl", ["100"])] =
      validate_yubikey_otp testHmac testB64 (([]) : List (Int × String))
        (fun _ => .failed .otherErr) "T2"
        [("otp", [otp32]), ("nonce", [nonce16]), ("sl", ["100"])] := by
  have h := C9_sl_guard_forces_backend_error testHmac testB64 ([] : List (Int × String))
    [("otp", [otp32]), ("nonce", [nonce16]), ("sl", ["100"])] ["100"] (by decide)
  exact ⟨h.1, h.2.2.1 (by decide), h.2.2.2.2 demoDevice (fun _ => .failed .otherErr) "T1" "T2"⟩
